import Mathlib

/-!
Formalization of the pixelmatch-go image comparison library (package pixelmatch,
concurrent Diff implementation).  Pixels are 8-bit RGBA quadruples, modelled with
Fin 256 so that the Go uint8 wrap-around arithmetic is mirrored exactly.  The
float64 color arithmetic of the source is modelled with exact rationals.
-/

/-- An 8-bit RGBA pixel, the [4]uint8 value produced by getColor. -/
structure Pixel where
  r : Fin 256
  g : Fin 256
  b : Fin 256
  a : Fin 256
deriving DecidableEq

/-- Go uint8 arithmetic of the source: blend(c, a uint8) uint8 = 255 + (c-255)*a,
with wrap-around subtraction, multiplication and addition modulo 256 (Fin 256
arithmetic is exactly uint8 arithmetic). -/
def blend (c a : Fin 256) : Fin 256 :=
  255 + (c - 255) * a

/-- Go uint8 division (truncating), used by the source for c1[3] /= 255. -/
def u8div (x y : Fin 256) : Fin 256 :=
  ⟨x.val / y.val, lt_of_le_of_lt (Nat.div_le_self _ _) x.isLt⟩

/-- rgb2y of the source: float64(r)*0.29889531 + float64(g)*0.58662247 + float64(b)*0.11448223. -/
def rgb2y (r g b : Fin 256) : ℚ :=
  (r.val : ℚ) * 0.29889531 + (g.val : ℚ) * 0.58662247 + (b.val : ℚ) * 0.11448223

/-- rgb2i of the source. -/
def rgb2i (r g b : Fin 256) : ℚ :=
  (r.val : ℚ) * 0.59597799 - (g.val : ℚ) * 0.27417610 - (b.val : ℚ) * 0.32180189

/-- rgb2q of the source. -/
def rgb2q (r g b : Fin 256) : ℚ :=
  (r.val : ℚ) * 0.21147017 - (g.val : ℚ) * 0.52261711 + (b.val : ℚ) * 0.31114694

/-- The alpha preprocessing block at the start of colorDelta: when the alpha
channel is below 255 the source divides it by 255 (uint8 division) and blends
each color channel with the result. -/
def alphaPre (c : Pixel) : Pixel :=
  if c.a < 255 then
    let a2 := u8div c.a 255
    ⟨blend c.r a2, blend c.g a2, blend c.b a2, a2⟩
  else c

/-- colorDelta of the source (the [4]uint8 version used by Diff): signed
perceptual YIQ distance between two pixels, with an exact-equality shortcut,
alpha preprocessing, and a luma-only mode. -/
def colorDelta (c1 c2 : Pixel) (yOnly : Bool) : ℚ :=
  if c1 = c2 then 0
  else
    let d1 := alphaPre c1
    let d2 := alphaPre c2
    let y1 := rgb2y d1.r d1.g d1.b
    let y2 := rgb2y d2.r d2.g d2.b
    let y := y1 - y2
    if yOnly then y
    else
      let i := rgb2i d1.r d1.g d1.b - rgb2i d2.r d2.g d2.b
      let q := rgb2q d1.r d1.g d1.b - rgb2q d2.r d2.g d2.b
      let delta := 0.5053 * y * y + 0.299 * i * i + 0.1957 * q * q
      if y1 > y2 then -delta else delta

/-- Luma of a pixel as the specification writes it: Y = 0.29889531*R + 0.58662247*G + 0.11448223*B. -/
def ySpec (p : Pixel) : ℚ :=
  0.29889531 * (p.r.val : ℚ) + 0.58662247 * (p.g.val : ℚ) + 0.11448223 * (p.b.val : ℚ)

/-- Chroma I of a pixel as the specification writes it. -/
def iSpec (p : Pixel) : ℚ :=
  0.59597799 * (p.r.val : ℚ) - 0.27417610 * (p.g.val : ℚ) - 0.32180189 * (p.b.val : ℚ)

/-- Chroma Q of a pixel as the specification writes it. -/
def qSpec (p : Pixel) : ℚ :=
  0.21147017 * (p.r.val : ℚ) - 0.52261711 * (p.g.val : ℚ) + 0.31114694 * (p.b.val : ℚ)

/-- Modelled from the spec: the white-backdrop blend formula of section 4.1,
blend(c, a) = 255 + (c - 255) * (a/255), with real (exact rational) division. -/
def specBlend (c a : ℚ) : ℚ :=
  255 + (c - 255) * (a / 255)

/-- The absolute threshold derivation used by Diff: maxDelta = 35215.0 * threshold * threshold. -/
def maxDeltaOf (t : ℚ) : ℚ :=
  35215 * t * t

/-- Bounded search kernel for the injectivity of the luma map: after reducing
the coefficient equation 29889531*dr + 58662247*dg + 11448223*db = 0 modulo 7
(db = 7e) and modulo 9 (dg + e = 9f), the residual equation is
4269933*dr + 75422889*f + 3067902*e = 0 and this predicate checks that it has
no solution with dr in [-255, 255] other than f = e = 0. -/
def lumaPairOK (jf ke : Nat) : Bool :=
  let f : Int := (jf : Int) - 32
  let e : Int := (ke : Int) - 36
  let s : Int := 75422889 * f + 3067902 * e
  (!(decide (s % 4269933 = 0))) || (decide (f = 0) && decide (e = 0)) ||
    decide (255 * 4269933 < |s|)

/-- An in-memory pixel grid: the pixel lookup behind getColor(img, x, y). -/
def Img : Type := Int → Int → Pixel

/-- Go's math.Abs as the source uses it on float64 deltas. -/
def goAbs (q : ℚ) : ℚ :=
  if q < 0 then -q else q

/-- The integer interval [lo, hi) as a list in increasing order. -/
def rangeIco (lo hi : Int) : List Int :=
  (List.range (hi - lo).toNat).map (fun k : Nat => lo + (k : Int))

/-- The boundary-clamped neighbor window scanned by both antialiased and
hasManySiblings: x from max(x1-1, 0) to min(x1+1, width-1) and y likewise,
skipping the center, in the source's loop order (x outer, y inner). -/
def neighbors (x1 y1 width height : Int) : List (Int × Int) :=
  let x0 := max (x1 - 1) 0
  let y0 := max (y1 - 1) 0
  let x2 := min (x1 + 1) (width - 1)
  let y2 := min (y1 + 1) (height - 1)
  ((rangeIco x0 (x2 + 1)).flatMap fun x => (rangeIco y0 (y2 + 1)).map fun y => (x, y)).filter
    (fun p => p != (x1, y1))

/-- The boundary seed of the source: zeroes starts at 1 when a clamped window
bound coincides with the center coordinate (x1 == x0 || x1 == x2 || y1 == y0 || y1 == y2). -/
def edgeSeed (x1 y1 width height : Int) : Nat :=
  if x1 = max (x1 - 1) 0 ∨ x1 = min (x1 + 1) (width - 1) ∨
      y1 = max (y1 - 1) 0 ∨ y1 = min (y1 + 1) (height - 1) then 1 else 0

/-- The scanning loop of hasManySiblings: zeroes counts exact-equality
neighbors and the loop returns true as soon as the count exceeds 2. -/
def siblingsLoop (img : Img) (x1 y1 : Int) : List (Int × Int) → Nat → Bool
  | [], _ => false
  | p :: rest, z =>
    let z2 := if img x1 y1 = img p.1 p.2 then z + 1 else z
    if 2 < z2 then true else siblingsLoop img x1 y1 rest z2

/-- hasManySiblings of the source (the version used by Diff): whether a pixel
has 3+ adjacent pixels of exactly the same color, with the boundary seed. -/
def hasManySiblings (img : Img) (x1 y1 width height : Int) : Bool :=
  siblingsLoop img x1 y1 (neighbors x1 y1 width height) (edgeSeed x1 y1 width height)

/-- Scan state of antialiased: the zero count, the most negative and most
positive delta seen, and the positions they were seen at. -/
structure AAStat where
  zeroes : Nat
  dmin : ℚ
  dmax : ℚ
  minX : Int
  minY : Int
  maxX : Int
  maxY : Int

/-- The neighbor scan of antialiased; none models the early false return after
the third zero delta.  As in the source, each delta is computed between the
center pixel of the first image and the neighbor pixel of the second image
(colorDelta(getColor(a, x1, y1), getColor(b, x, y), true)). -/
def aaLoop (a b : Img) (x1 y1 : Int) : List (Int × Int) → AAStat → Option AAStat
  | [], s => some s
  | p :: rest, s =>
    let delta := colorDelta (a x1 y1) (b p.1 p.2) true
    if delta = 0 then
      if 2 < s.zeroes + 1 then none
      else aaLoop a b x1 y1 rest { s with zeroes := s.zeroes + 1 }
    else if delta < s.dmin then
      aaLoop a b x1 y1 rest { s with dmin := delta, minX := p.1, minY := p.2 }
    else if s.dmax < delta then
      aaLoop a b x1 y1 rest { s with dmax := delta, maxX := p.1, maxY := p.2 }
    else aaLoop a b x1 y1 rest s

/-- antialiased of the source (the version used by Diff). -/
def antialiased (a b : Img) (x1 y1 width height : Int) : Bool :=
  match aaLoop a b x1 y1 (neighbors x1 y1 width height)
      ⟨edgeSeed x1 y1 width height, 0, 0, 0, 0, 0, 0⟩ with
  | none => false
  | some s =>
    if s.dmin = 0 ∨ s.dmax = 0 then false
    else
      (hasManySiblings a s.minX s.minY width height &&
        hasManySiblings b s.minX s.minY width height) ||
      (hasManySiblings a s.maxX s.maxY width height &&
        hasManySiblings b s.maxX s.maxY width height)

/-- Modelled from the spec: section 4.4's classifier scans the 8-neighborhood
in one image, i.e. each luma-only delta is computed between the center pixel
and the neighbor pixel of the same (first) image; everything else is as in
the source's antialiased. -/
def antialiasedSameImg (a b : Img) (x1 y1 width height : Int) : Bool :=
  match aaLoop a a x1 y1 (neighbors x1 y1 width height)
      ⟨edgeSeed x1 y1 width height, 0, 0, 0, 0, 0, 0⟩ with
  | none => false
  | some s =>
    if s.dmin = 0 ∨ s.dmax = 0 then false
    else
      (hasManySiblings a s.minX s.minY width height &&
        hasManySiblings b s.minX s.minY width height) ||
      (hasManySiblings a s.maxX s.maxY width height &&
        hasManySiblings b s.maxX s.maxY width height)

/-- Constant all-black test image. -/
def cImg : Img := fun _ _ => ⟨0, 0, 0, 255⟩

/-- First test image: column 0 black, (1,0) black, rest of column 1 gray,
column 2 white — an anti-aliased edge pattern around the gray center (1,1). -/
def exImgA : Img := fun x y =>
  if x = 0 then ⟨0, 0, 0, 255⟩
  else if x = 1 ∧ y = 0 then ⟨0, 0, 0, 255⟩
  else if x = 1 then ⟨128, 128, 128, 255⟩
  else ⟨255, 255, 255, 255⟩

/-- Second test image: gray everywhere except a black center (1,1). -/
def exImgB : Img := fun x y =>
  if x = 1 ∧ y = 1 then ⟨0, 0, 0, 255⟩ else ⟨128, 128, 128, 255⟩

/-- An image.Rectangle value. -/
structure GoRect where
  minX : Int
  minY : Int
  maxX : Int
  maxY : Int
deriving DecidableEq

/-- Rectangle.Empty() of the Go image package: Min.X >= Max.X || Min.Y >= Max.Y. -/
def GoRect.isEmpty (r : GoRect) : Bool :=
  decide (r.maxX ≤ r.minX) || decide (r.maxY ≤ r.minY)

/-- Rectangle.Eq of the Go image package: structural equality, or both empty. -/
def rectGoEq (r s : GoRect) : Bool :=
  r == s || (r.isEmpty && s.isEmpty)

/-- An *image.NRGBA value: its bounds rectangle and its pixel grid. -/
structure NRGBAImage where
  rect : GoRect
  pix : Img

/-- An image.Image interface value as Diff receives it: the nil interface, a
possibly nil *image.NRGBA pointer, or a non-NRGBA concrete image (only its
bounds matter to the code that runs before the type assertion is used). -/
inductive GoIface where
  | nilI : GoIface
  | nrgbaPtr : Option NRGBAImage → GoIface
  | otherImg : GoRect → GoIface

/-- isEmptyImg of the source: img == nil || img.Bounds().Empty().  A non-nil
interface wrapping a nil *image.NRGBA pointer dereferences nil in Bounds,
modelled as none (runtime panic). -/
def isEmptyImgI : GoIface → Option Bool
  | .nilI => some true
  | .nrgbaPtr none => none
  | .nrgbaPtr (some im) => some im.rect.isEmpty
  | .otherImg r => some r.isEmpty

/-- The Bounds() call on an interface value; none models a nil dereference. -/
def boundsI : GoIface → Option GoRect
  | .nilI => none
  | .nrgbaPtr none => none
  | .nrgbaPtr (some im) => some im.rect
  | .otherImg r => some r

/-- indexImgStr of the source. -/
def indexImgStr (i : Nat) : String :=
  match i with
  | 0 => "first img"
  | 1 => "second img"
  | 2 => "output img"
  | _ => toString i ++ " img"

/-- The first loop of checkImages: collect the names of the empty images, in
index order; none models the panic of isEmptyImg on a wrapped nil pointer. -/
def emptyScanAux : List GoIface → Nat → Option (List String)
  | [], _ => some []
  | img :: rest, i =>
    match isEmptyImgI img with
    | none => none
    | some true => (emptyScanAux rest (i + 1)).map (fun names => indexImgStr i :: names)
    | some false => emptyScanAux rest (i + 1)

/-- The second loop of checkImages: collect, for each consecutive index pair
whose bounds are not Eq, the pair of indices with both bounds. -/
def sizeScanAux : List GoIface → Nat → Option (List (Nat × GoRect × Nat × GoRect))
  | [], _ => some []
  | [_], _ => some []
  | a :: b :: rest, i =>
    match boundsI a, boundsI b with
    | some ra, some rb =>
      match sizeScanAux (b :: rest) (i + 1) with
      | some entries =>
        some (if rectGoEq ra rb then entries else (i, ra, i + 1, rb) :: entries)
      | none => none
    | _, _ => none

/-- The two error kinds of the package, carrying the data their messages list:
the empty image names, or the offending consecutive bounds pairs. -/
inductive GoError where
  | emptyImage : List String → GoError
  | imageSize : List (Nat × GoRect × Nat × GoRect) → GoError

/-- Rectangle.String() of the Go image package. -/
def rectStr (r : GoRect) : String :=
  "(" ++ toString r.minX ++ "," ++ toString r.minY ++ ")-(" ++
    toString r.maxX ++ "," ++ toString r.maxY ++ ")"

/-- One entry of the size mismatch message, %q (%s) != %q (%s). -/
def sizeEntryStr (e : Nat × GoRect × Nat × GoRect) : String :=
  "\"" ++ indexImgStr e.1 ++ "\" (" ++ rectStr e.2.1 ++ ") != \"" ++
    indexImgStr e.2.2.1 ++ "\" (" ++ rectStr e.2.2.2 ++ ")"

/-- The full error message text as fmt.Errorf renders it in checkImages. -/
def errText : GoError → String
  | .emptyImage names => "image is empty: images: " ++ String.intercalate "," names
  | .imageSize entries =>
    "size of images must be equals: images: " ++
      String.intercalate "," (entries.map sizeEntryStr)

/-- checkImages of the source: the empty scan runs first and its error wins;
otherwise consecutive bounds mismatches are collected; none models a panic. -/
def checkImages (imgs : List GoIface) : Option (Option GoError) :=
  match emptyScanAux imgs 0 with
  | none => none
  | some names =>
    if names.isEmpty then
      match sizeScanAux imgs 0 with
      | none => none
      | some entries =>
        if entries.isEmpty then some none else some (some (.imageSize entries))
    else some (some (.emptyImage names))

/-- The tile side computation of Diff: containerW := 2000; if containerW > w,
containerW = w - 1 (and the same for the height). -/
def containerSide (d : Int) : Int :=
  if 2000 > d then d - 1 else 2000

/-- The start offsets of the tile loop for x0 := 0; x0 < bound; x0 += step:
the multiples of step below bound.  For step <= 0 the Go loop never advances
(divergence is handled at the Diff level), so the list is empty here. -/
def tileStarts (bound step : Int) : List Int :=
  if 0 < step ∧ 0 < bound then
    (List.range ((bound - 1) / step + 1).toNat).map (fun k : Nat => (k : Int) * step)
  else []

/-- One tile rectangle of Diff: x1 := x0 + containerW; y1 := y0 + containerW
(the source uses containerW for y1 as well); each is clamped to the image
dimension when one further step would overrun it. -/
def mkTile (w h cW cH x0 y0 : Int) : GoRect :=
  let x1 := x0 + cW
  let y1 := y0 + cW
  ⟨x0, y0, if w < x1 + cW then w else x1, if h < y1 + cH then h else y1⟩

/-- All tile rectangles Diff dispatches, in loop order (x outer, y inner). -/
def dispatchedTiles (w h : Int) : List GoRect :=
  let cW := containerSide w
  let cH := containerSide h
  (tileStarts (w - cW) cW).flatMap fun x0 =>
    (tileStarts (h - cH) cH).map fun y0 => mkTile w h cW cH x0 y0

/-- Whether pixel position (x, y) lies in rectangle r. -/
def inRect (r : GoRect) (x y : Int) : Bool :=
  decide (r.minX ≤ x) && decide (x < r.maxX) && decide (r.minY ≤ y) && decide (y < r.maxY)

/-- The pixel positions of a rectangle in processSubImage loop order
(y outer, x inner). -/
def pixList (r : GoRect) : List (Int × Int) :=
  (rangeIco r.minY r.maxY).flatMap fun y => (rangeIco r.minX r.maxX).map fun x => (x, y)

/-- The Options structure of the source. -/
structure Options where
  threshold : ℚ
  includeAA : Bool
  alpha : ℚ
  aaColor : Pixel
  diffColor : Pixel
  diffColorAlt : Option Pixel
  diffMask : Bool

/-- defaultOptions of the source (the version used by Diff): threshold 0.1,
includeAA true, alpha 0.1, aaColor yellow, diffColor red, diffColorAlt nil,
diffMask true. -/
def defaultOptions : Options :=
  ⟨0.1, true, 0.1, ⟨255, 255, 0, 255⟩, ⟨255, 0, 0, 255⟩, none, true⟩

/-- Go's numeric conversion uint8(f) for the nonnegative in-range float values
produced by grayColor: truncation. -/
def u8ofRat (q : ℚ) : Fin 256 :=
  ⟨q.floor.toNat % 256, Nat.mod_lt _ (by norm_num)⟩

/-- grayColor of the source: a gray pixel from the luma of the first image's
pixel, blended with white through the uint8 blend. -/
def grayColor (c : Pixel) (alpha : ℚ) : Pixel :=
  let val := blend (u8ofRat (rgb2y c.r c.g c.b)) (u8ofRat ((alpha * (c.a.val : ℚ)) / 255))
  ⟨val, val, val, 255⟩

/-- A single pixel write into the output grid (output.SetNRGBA(x, y, c)). -/
def writePix (o : Img) (x y : Int) (c : Pixel) : Img :=
  fun x2 y2 => if x2 = x ∧ y2 = y then c else o x2 y2

/-- The per-pixel body of processSubImage: compare, then either classify
anti-aliasing (with the duplicated antialiased(a,b,..) call of the source),
paint the diff color and count, or paint the gray background. -/
def pixStep (a b : Img) (w h : Int) (opts : Options) (maxDelta : ℚ)
    (acc : Nat × Img) (p : Int × Int) : Nat × Img :=
  let cc1 := a p.1 p.2
  let cc2 := b p.1 p.2
  let delta := colorDelta cc1 cc2 false
  if maxDelta < goAbs delta then
    if (!opts.includeAA) && (antialiased a b p.1 p.2 w h || antialiased a b p.1 p.2 w h) then
      if !opts.diffMask then (acc.1, writePix acc.2 p.1 p.2 opts.aaColor) else acc
    else (acc.1 + 1, writePix acc.2 p.1 p.2 opts.diffColor)
  else if !opts.diffMask then (acc.1, writePix acc.2 p.1 p.2 (grayColor cc1 opts.alpha))
  else acc

/-- processSubImage of the source over one tile rectangle: fold the per-pixel
body over the tile's pixels, starting from a zero local count. -/
def processTile (a b : Img) (w h : Int) (opts : Options) (maxDelta : ℚ)
    (r : GoRect) (o : Img) : Nat × Img :=
  (pixList r).foldl (pixStep a b w h opts maxDelta) (0, o)

/-- The full pixel work of Diff: every dispatched tile is processed and the
local counts are summed (the atomic adds), sequentialized in dispatch order
(tile writes target disjoint pixels, so order does not matter). -/
def diffRun (a b : Img) (w h : Int) (o : Img) : Nat × Img :=
  let maxDelta := maxDeltaOf defaultOptions.threshold
  (dispatchedTiles w h).foldl
    (fun acc t =>
      let res := processTile a b w h defaultOptions maxDelta t acc.2
      (acc.1 + res.1, res.2))
    (0, o)

/-- The observable outcome of a Diff call: an error return (with the returned
count and the untouched output grid), a runtime panic, divergence of the tile
loop, or a normal return. -/
inductive DiffOutcome where
  | fail : GoError → Nat → Img → DiffOutcome
  | crashed : DiffOutcome
  | looping : DiffOutcome
  | ok : Nat → Img → DiffOutcome

/-- The discarded-failure type assertions img1.(*image.NRGBA) of Diff. -/
def asNRGBA : GoIface → Option NRGBAImage
  | .nrgbaPtr p => p
  | _ => none

/-- The body of Diff after checkImages has passed: compute the tile sides from
the output bounds; if a tile is dispatched, the SubImage calls on the asserted
pointers panic when an input was not an *image.NRGBA; a nonpositive step with
a nonempty loop range makes the Go loop run forever. -/
def diffBody (img1 img2 : GoIface) (out : NRGBAImage) : DiffOutcome :=
  let w := out.rect.maxX
  let h := out.rect.maxY
  let cW := containerSide w
  let cH := containerSide h
  if 0 < w - cW then
    if 0 < h - cH then
      match asNRGBA img1, asNRGBA img2 with
      | some a, some b =>
        if 0 < cW ∧ 0 < cH then
          let res := diffRun a.pix b.pix w h out.pix
          .ok res.1 res.2
        else .looping
      | _, _ => .crashed
    else if 0 < cW then .ok 0 out.pix else .looping
  else .ok 0 out.pix

/-- Diff of the source: check the three images (the output pointer is passed
through the image.Image interface), return the error with a zero count and an
untouched buffer, else run the tiled comparison. -/
def Diff (img1 img2 : GoIface) (output : Option NRGBAImage) : DiffOutcome :=
  match checkImages [img1, img2, .nrgbaPtr output] with
  | none => .crashed
  | some (some e) =>
    .fail e 0 (match output with | some o => o.pix | none => fun _ _ => ⟨0, 0, 0, 0⟩)
  | some none =>
    match output with
    | none => .crashed
    | some out => diffBody img1 img2 out

/-- The count a Diff call returns, when it returns. -/
def outcomeCount : DiffOutcome → Option Nat
  | .ok n _ => some n
  | .fail _ n _ => some n
  | _ => none

/-- The output grid pixel at (x, y) after a Diff call, when it returns. -/
def outcomePix : DiffOutcome → Int → Int → Option Pixel
  | .ok _ o, x, y => some (o x y)
  | .fail _ _ o, x, y => some (o x y)
  | _, _, _ => none

/-- All-black 2x2 input image. -/
def blackImg2 : NRGBAImage := ⟨⟨0, 0, 2, 2⟩, fun _ _ => ⟨0, 0, 0, 255⟩⟩

/-- All-white 2x2 input image. -/
def whiteImg2 : NRGBAImage := ⟨⟨0, 0, 2, 2⟩, fun _ _ => ⟨255, 255, 255, 255⟩⟩

/-- Transparent 2x2 output buffer. -/
def outImg2 : NRGBAImage := ⟨⟨0, 0, 2, 2⟩, fun _ _ => ⟨0, 0, 0, 0⟩⟩

/-- Non-NRGBA 2000x2000 bounds. -/
def rect2000 : GoRect := ⟨0, 0, 2000, 2000⟩

/-- Transparent 2000x2000 output buffer. -/
def outImg2000 : NRGBAImage := ⟨rect2000, fun _ _ => ⟨0, 0, 0, 0⟩⟩

/-- Non-empty 1x2000 bounds: containerW becomes w - 1 = 0, so the outer tile
loop never advances. -/
def rect1x2000 : GoRect := ⟨0, 0, 1, 2000⟩

/-- Transparent 1x2000 output buffer. -/
def outImg1x2000 : NRGBAImage := ⟨rect1x2000, fun _ _ => ⟨0, 0, 0, 0⟩⟩

/-- Witness for C10 at a concrete 3x3 non-NRGBA first input. -/
def otherRect3 : GoRect := ⟨0, 0, 3, 3⟩

/-- All-black 3x3 NRGBA image. -/
def blackImg3 : NRGBAImage := ⟨⟨0, 0, 3, 3⟩, fun _ _ => ⟨0, 0, 0, 255⟩⟩

/-- Transparent 3x3 output buffer. -/
def outImg3 : NRGBAImage := ⟨⟨0, 0, 3, 3⟩, fun _ _ => ⟨0, 0, 0, 0⟩⟩

/-- All-black 1x1 image. -/
def img1x1 : NRGBAImage := ⟨⟨0, 0, 1, 1⟩, fun _ _ => ⟨0, 0, 0, 255⟩⟩

/-- The per-pixel comparison outcome that decides painting and counting. -/
def aboveThreshold (a b : Img) (md : ℚ) (x y : Int) : Prop :=
  md < goAbs (colorDelta (a x y) (b x y) false)

instance (a b : Img) (md : ℚ) (x y : Int) : Decidable (aboveThreshold a b md x y) := by
  unfold aboveThreshold
  infer_instance

theorem rgb2y_eq_ySpec (p : Pixel) : rgb2y p.r p.g p.b = ySpec p := by
  unfold rgb2y ySpec; ring

theorem rgb2i_eq_iSpec (p : Pixel) : rgb2i p.r p.g p.b = iSpec p := by
  unfold rgb2i iSpec; ring

theorem rgb2q_eq_qSpec (p : Pixel) : rgb2q p.r p.g p.b = qSpec p := by
  unfold rgb2q qSpec; ring

/-- C3: colorDelta returns 0 when all four channels are equal; otherwise, with
R, G, B the channels after the alpha preprocessing step, luma-only mode returns
Y1 - Y2 with Y = 0.29889531*R + 0.58662247*G + 0.11448223*B, and full mode
returns 0.5053*dY^2 + 0.299*dI^2 + 0.1957*dQ^2 with the fixed NTSC I and Q
coefficients, negated exactly when pixel1's luma exceeds pixel2's luma; the
caller's absolute threshold is 35215 * threshold^2. -/
theorem colorDelta_formula :
    (∀ (c1 c2 : Pixel) (yOnly : Bool), colorDelta c1 c2 yOnly =
      if c1 = c2 then 0
      else if yOnly then ySpec (alphaPre c1) - ySpec (alphaPre c2)
      else
        (if ySpec (alphaPre c2) < ySpec (alphaPre c1) then -1 else 1) *
          (0.5053 * (ySpec (alphaPre c1) - ySpec (alphaPre c2)) ^ 2 +
            0.299 * (iSpec (alphaPre c1) - iSpec (alphaPre c2)) ^ 2 +
            0.1957 * (qSpec (alphaPre c1) - qSpec (alphaPre c2)) ^ 2)) ∧
    (∀ t : ℚ, maxDeltaOf t = 35215 * t ^ 2) := by
  constructor
  · intro c1 c2 yOnly
    unfold colorDelta
    by_cases h12 : c1 = c2
    · rw [if_pos h12, if_pos h12]
    · rw [if_neg h12, if_neg h12]
      dsimp only
      rw [rgb2y_eq_ySpec, rgb2y_eq_ySpec, rgb2i_eq_iSpec, rgb2i_eq_iSpec,
        rgb2q_eq_qSpec, rgb2q_eq_qSpec]
      cases yOnly
      · simp only [Bool.false_eq_true, if_false]
        by_cases hy : ySpec (alphaPre c2) < ySpec (alphaPre c1)
        · rw [if_pos hy, if_pos hy]; ring
        · rw [if_neg hy, if_neg hy]; ring
      · simp only [if_true]
  · intro t
    unfold maxDeltaOf
    ring

unseal Rat.ofScientific Rat.mul Rat.inv Rat.add Rat.sub in
/-- C4 (code bug exhibit): the source's uint8 blend sends every non-opaque
pixel to pure white because c1[3] /= 255 truncates to 0, so a half-transparent
black pixel compares equal to opaque white, whereas the specification's blend
formula yields channel value 127 for it. -/
theorem alphaPre_not_spec_blend :
    alphaPre ⟨0, 0, 0, 128⟩ = ⟨255, 255, 255, 0⟩ ∧
    specBlend 0 128 = 127 ∧
    colorDelta ⟨0, 0, 0, 128⟩ ⟨255, 255, 255, 255⟩ false = 0 := by
  refine ⟨by decide, ?_, by decide⟩
  unfold specBlend
  norm_num

set_option maxHeartbeats 4000000 in
set_option maxRecDepth 10000 in
theorem lumaAll : ∀ jf : Nat, jf < 65 → ∀ ke : Nat, ke < 73 → lumaPairOK jf ke = true := by
  decide

/-- Propositional form of the bounded search: for f in [-32, 32] and e in
[-36, 36], either the residual form is not divisible by 4269933, or it exceeds
255 * 4269933 in magnitude, or f = e = 0. -/
theorem lumaAllProp (f e : ℤ) (hf1 : -32 ≤ f) (hf2 : f ≤ 32)
    (he1 : -36 ≤ e) (he2 : e ≤ 36) :
    ¬((75422889 * f + 3067902 * e) % 4269933 = 0) ∨ (f = 0 ∧ e = 0) ∨
      255 * 4269933 < |75422889 * f + 3067902 * e| := by
  have hall := lumaAll (f + 32).toNat (by omega) (e + 36).toNat (by omega)
  unfold lumaPairOK at hall
  dsimp only at hall
  rw [show (((f + 32).toNat : Int) - 32) = f by omega,
    show (((e + 36).toNat : Int) - 36) = e by omega] at hall
  by_cases h1 : (75422889 * f + 3067902 * e) % 4269933 = 0
  · by_cases h3 : 255 * 4269933 < |75422889 * f + 3067902 * e|
    · exact Or.inr (Or.inr h3)
    · refine Or.inr (Or.inl ?_)
      rw [decide_eq_true h1, decide_eq_false h3] at hall
      simp only [Bool.not_true, Bool.false_or, Bool.or_false, Bool.and_eq_true,
        decide_eq_true_eq] at hall
      exact hall
  · exact Or.inl h1

set_option maxHeartbeats 1600000 in
/-- The integer luma form 29889531*dr + 58662247*dg + 11448223*db vanishes on
the cube [-255, 255]^3 only at the origin. -/
theorem lumaKernelTrivial (dr dg db : ℤ)
    (hdr1 : -255 ≤ dr) (hdr2 : dr ≤ 255) (hdg1 : -255 ≤ dg) (hdg2 : dg ≤ 255)
    (hdb1 : -255 ≤ db) (hdb2 : db ≤ 255)
    (heq : 29889531 * dr + 58662247 * dg + 11448223 * db = 0) :
    dr = 0 ∧ dg = 0 ∧ db = 0 := by
  have h7db : (7 : ℤ) ∣ db := by
    have h7 : (7 : ℤ) ∣ 11448223 * db :=
      ⟨-(4269933 * dr + 8380321 * dg), by linarith⟩
    have hp : Prime (7 : ℤ) := by norm_num
    rcases hp.dvd_mul.1 h7 with h | h
    · exact absurd h (by norm_num)
    · exact h
  obtain ⟨e, he⟩ := h7db
  have he1 : -36 ≤ e := by clear heq; omega
  have he2 : e ≤ 36 := by clear heq; omega
  rw [he] at heq
  have heq2 : 4269933 * dr + 8380321 * dg + 11448223 * e = 0 := by linarith
  clear heq
  have h9de : (9 : ℤ) ∣ dg + e := by
    have h9 : (9 : ℤ) ∣ 7 * (dg + e) :=
      ⟨-(474437 * dr + 931146 * dg + 1272024 * e), by linarith⟩
    have hcop : IsCoprime (9 : ℤ) 7 := by
      rw [Int.isCoprime_iff_gcd_eq_one]; norm_num
    exact hcop.dvd_of_dvd_mul_left h9
  obtain ⟨f, hf⟩ := h9de
  have hf1 : -32 ≤ f := by clear heq2; omega
  have hf2 : f ≤ 32 := by clear heq2; omega
  have heq3 : 75422889 * f + 3067902 * e = -(4269933 * dr) := by
    have hdg9 : dg = 9 * f - e := by clear heq2; omega
    rw [hdg9] at heq2
    linarith
  rcases lumaAllProp f e hf1 hf2 he1 he2 with hmod | ⟨hfz, hez⟩ | habs
  · exfalso
    apply hmod
    rw [heq3]
    clear heq2 heq3
    omega
  · subst hfz
    subst hez
    have hdgz : dg = 0 := by clear heq2 heq3; omega
    have hdbz : db = 0 := by clear heq2 heq3; omega
    have hdrz : dr = 0 := by clear heq2; omega
    exact ⟨hdrz, hdgz, hdbz⟩
  · exfalso
    rw [heq3, abs_neg, abs_mul] at habs
    rw [show |(4269933 : ℤ)| = 4269933 by norm_num] at habs
    have h255 : |dr| ≤ 255 := abs_le.2 ⟨hdr1, hdr2⟩
    have hmono := mul_le_mul_of_nonneg_left h255 (by norm_num : (0 : ℤ) ≤ 4269933)
    linarith

set_option maxHeartbeats 1600000 in
/-- The source's rational luma map rgb2y is injective on 8-bit channel triples:
no two distinct RGB triples have exactly equal luma. -/
theorem rgb2y_injective (r g b r2 g2 b2 : Fin 256)
    (h : rgb2y r g b = rgb2y r2 g2 b2) : r = r2 ∧ g = g2 ∧ b = b2 := by
  have h8 : (29889531 : ℚ) * r.val + 58662247 * g.val + 11448223 * b.val
      = 29889531 * r2.val + 58662247 * g2.val + 11448223 * b2.val := by
    unfold rgb2y at h
    linear_combination (100000000 : ℚ) * h
  have hz : (29889531 : ℤ) * r.val + 58662247 * g.val + 11448223 * b.val
      = 29889531 * r2.val + 58662247 * g2.val + 11448223 * b2.val := by
    exact_mod_cast h8
  have hr := r.isLt
  have hg := g.isLt
  have hb := b.isLt
  have hr2 := r2.isLt
  have hg2 := g2.isLt
  have hb2 := b2.isLt
  clear h h8
  have hlo : ∀ x y : Fin 256, -255 ≤ (x.val : ℤ) - y.val := by
    intro x y
    have hx := x.isLt
    have hy := y.isLt
    omega
  have hhi : ∀ x y : Fin 256, (x.val : ℤ) - y.val ≤ 255 := by
    intro x y
    have hx := x.isLt
    have hy := y.isLt
    omega
  have heqd : 29889531 * ((r.val : ℤ) - r2.val) + 58662247 * ((g.val : ℤ) - g2.val)
      + 11448223 * ((b.val : ℤ) - b2.val) = 0 := by linarith
  clear hz
  have hk := lumaKernelTrivial ((r.val : ℤ) - r2.val) ((g.val : ℤ) - g2.val)
    ((b.val : ℤ) - b2.val) (hlo r r2) (hhi r r2) (hlo g g2) (hhi g g2) (hlo b b2) (hhi b b2)
    heqd
  clear heqd
  obtain ⟨h1, h2, h3⟩ := hk
  exact ⟨Fin.ext (by omega), Fin.ext (by omega), Fin.ext (by omega)⟩

/-- C8: colorDelta is antisymmetric: for every pair of 8-bit RGBA pixels and a
fixed luma-only/full mode flag, colorDelta p1 p2 equals the negation of
colorDelta p2 p1. -/
theorem colorDelta_antisymm (c1 c2 : Pixel) (yOnly : Bool) :
    colorDelta c1 c2 yOnly = -colorDelta c2 c1 yOnly := by
  unfold colorDelta
  by_cases h12 : c1 = c2
  · rw [if_pos h12, if_pos h12.symm, neg_zero]
  · have h21 : ¬c2 = c1 := fun hh => h12 hh.symm
    rw [if_neg h12, if_neg h21]
    dsimp only
    cases yOnly
    · simp only [Bool.false_eq_true, if_false]
      rcases lt_trichotomy (rgb2y (alphaPre c1).r (alphaPre c1).g (alphaPre c1).b)
        (rgb2y (alphaPre c2).r (alphaPre c2).g (alphaPre c2).b) with h | h | h
      · rw [if_neg (not_lt.2 h.le), if_pos h, neg_neg]
        ring
      · obtain ⟨hr, hg, hb⟩ := rgb2y_injective _ _ _ _ _ _ h
        rw [if_neg (by rw [h]; exact lt_irrefl _), if_neg (by rw [h]; exact lt_irrefl _)]
        rw [hr, hg, hb]
        ring
      · rw [if_pos h, if_neg (not_lt.2 h.le)]
        ring
    · simp only [if_true]
      ring

theorem goAbs_eq_abs (q : ℚ) : goAbs q = |q| := by
  unfold goAbs
  rcases lt_trichotomy q 0 with h | h | h
  · rw [if_pos h, abs_of_neg h]
  · rw [h]; rfl
  · rw [if_neg (not_lt.2 h.le), abs_of_pos h]

theorem siblingsLoop_iff (img : Img) (x1 y1 : Int) :
    ∀ (l : List (Int × Int)) (z : Nat), z ≤ 2 →
      (siblingsLoop img x1 y1 l z = true ↔
        3 ≤ z + l.countP (fun p => decide (img x1 y1 = img p.1 p.2))) := by
  intro l
  induction l with
  | nil =>
    intro z hz
    simp only [siblingsLoop, List.countP_nil, Nat.add_zero]
    constructor
    · intro hcon; exact absurd hcon (by simp)
    · omega
  | cons p rest ih =>
    intro z hz
    simp only [siblingsLoop, List.countP_cons]
    by_cases heq : img x1 y1 = img p.1 p.2
    · rw [if_pos heq, if_pos (decide_eq_true heq)]
      by_cases h2 : 2 < z + 1
      · rw [if_pos h2]
        constructor
        · intro
          omega
        · intro
          rfl
      · rw [if_neg h2, ih (z + 1) (by omega)]
        omega
    · rw [if_neg heq, if_neg (fun hcon => heq (of_decide_eq_true hcon)),
        if_neg (by omega : ¬2 < z), ih z hz]
      omega

theorem siblingsLoop_early (img : Img) (x1 y1 : Int) :
    ∀ (l1 l2 : List (Int × Int)) (z : Nat), z ≤ 2 →
      3 ≤ z + l1.countP (fun p => decide (img x1 y1 = img p.1 p.2)) →
      siblingsLoop img x1 y1 (l1 ++ l2) z = true := by
  intro l1
  induction l1 with
  | nil =>
    intro l2 z hz hcount
    simp only [List.countP_nil] at hcount
    omega
  | cons p rest ih =>
    intro l2 z hz hcount
    simp only [List.countP_cons] at hcount
    simp only [List.cons_append, siblingsLoop]
    by_cases heq : img x1 y1 = img p.1 p.2
    · rw [if_pos (decide_eq_true heq)] at hcount
      rw [if_pos heq]
      by_cases h2 : 2 < z + 1
      · rw [if_pos h2]
      · rw [if_neg h2]
        exact ih l2 (z + 1) (by omega) (by omega)
    · rw [if_neg (fun hcon => heq (of_decide_eq_true hcon))] at hcount
      rw [if_neg heq]
      rw [if_neg (by omega : ¬2 < z)]
      exact ih l2 z hz (by omega)

theorem edgeSeed_eq (x1 y1 w h : Int)
    (hx0 : 0 ≤ x1) (hxw : x1 < w) (hy0 : 0 ≤ y1) (hyh : y1 < h) :
    edgeSeed x1 y1 w h = if x1 = 0 ∨ x1 = w - 1 ∨ y1 = 0 ∨ y1 = h - 1 then 1 else 0 := by
  unfold edgeSeed
  have hcond : (x1 = max (x1 - 1) 0 ∨ x1 = min (x1 + 1) (w - 1) ∨
      y1 = max (y1 - 1) 0 ∨ y1 = min (y1 + 1) (h - 1)) ↔
      (x1 = 0 ∨ x1 = w - 1 ∨ y1 = 0 ∨ y1 = h - 1) := by
    omega
  rw [if_congr hcond rfl rfl]

/-- C7: for every pixel position inside the image, hasManySiblings returns
true iff the number of exactly-equal pixels in its boundary-clamped
8-neighborhood, plus a virtual seed of 1 exactly when the position lies on an
image edge or corner, reaches at least 3; and the scanning loop returns true
as soon as the third equal neighbor is counted, independently of the
remaining neighbors. -/
theorem hasManySiblings_spec (img : Img) (x1 y1 width height : Int)
    (hx0 : 0 ≤ x1) (hxw : x1 < width) (hy0 : 0 ≤ y1) (hyh : y1 < height) :
    (hasManySiblings img x1 y1 width height = true ↔
      3 ≤ (if x1 = 0 ∨ x1 = width - 1 ∨ y1 = 0 ∨ y1 = height - 1 then 1 else 0) +
        (neighbors x1 y1 width height).countP
          (fun p => decide (img x1 y1 = img p.1 p.2))) ∧
    (∀ (l1 l2 : List (Int × Int)) (z : Nat), z ≤ 2 →
      3 ≤ z + l1.countP (fun p => decide (img x1 y1 = img p.1 p.2)) →
      siblingsLoop img x1 y1 (l1 ++ l2) z = true) := by
  constructor
  · unfold hasManySiblings
    rw [siblingsLoop_iff img x1 y1 _ _ (by unfold edgeSeed; split <;> omega)]
    rw [edgeSeed_eq x1 y1 width height hx0 hxw hy0 hyh]
  · exact siblingsLoop_early img x1 y1

/-- Witness for C7 at a concrete interior position of a constant 3x3 image. -/
theorem hasManySiblings_spec_witness :
    (0 : Int) ≤ 1 ∧ (1 : Int) < 3 ∧
    ((hasManySiblings cImg 1 1 3 3 = true ↔
      3 ≤ (if (1 : Int) = 0 ∨ (1 : Int) = 3 - 1 ∨ (1 : Int) = 0 ∨ (1 : Int) = 3 - 1
          then 1 else 0) +
        (neighbors 1 1 3 3).countP (fun p => decide (cImg 1 1 = cImg p.1 p.2))) ∧
    (∀ (l1 l2 : List (Int × Int)) (z : Nat), z ≤ 2 →
      3 ≤ z + l1.countP (fun p => decide (cImg 1 1 = cImg p.1 p.2)) →
      siblingsLoop cImg 1 1 (l1 ++ l2) z = true)) :=
  ⟨by decide, by decide,
    hasManySiblings_spec cImg 1 1 3 3 (by decide) (by decide) (by decide) (by decide)⟩

unseal Rat.ofScientific Rat.mul Rat.inv Rat.add Rat.sub in
/-- C2 (code bug exhibit): the source's antialiased computes each neighbor
delta between the first image's center pixel and the second image's neighbor
pixel (getColor(b, x, y)) instead of scanning within one image; at this input,
whose center pixel pair exceeds the default diff threshold, the source returns
false while the specification's same-image scan returns true. -/
theorem antialiased_cross_image_bug :
    antialiased exImgA exImgB 1 1 3 3 = false ∧
    antialiasedSameImg exImgA exImgB 1 1 3 3 = true ∧
    maxDeltaOf (1 / 10) < goAbs (colorDelta (exImgA 1 1) (exImgB 1 1) false) := by
  refine ⟨by decide, by decide, by decide⟩

unseal Rat.ofScientific Rat.mul Rat.inv Rat.add Rat.sub in
/-- C1 (code bug exhibit): for non-empty equal-bounds 2x2 images accepted by
Diff, the dispatched tiles are the single rectangle [0,1)x[0,1), so pixel
(1,1) lies in no tile; running Diff on all-black vs all-white 2x2 images
returns count 1 with (1,1) untouched, although that pixel pair exceeds the
threshold and a total partition would compare and write it. -/
theorem tiles_not_partition :
    dispatchedTiles 2 2 = [⟨0, 0, 1, 1⟩] ∧
    inRect ⟨0, 0, 1, 1⟩ 1 1 = false ∧
    maxDeltaOf defaultOptions.threshold <
      goAbs (colorDelta (blackImg2.pix 1 1) (whiteImg2.pix 1 1) false) ∧
    outcomeCount (Diff (.nrgbaPtr (some blackImg2)) (.nrgbaPtr (some whiteImg2))
      (some outImg2)) = some 1 ∧
    outcomePix (Diff (.nrgbaPtr (some blackImg2)) (.nrgbaPtr (some whiteImg2))
      (some outImg2)) 1 1 = some ⟨0, 0, 0, 0⟩ ∧
    outcomePix (Diff (.nrgbaPtr (some blackImg2)) (.nrgbaPtr (some whiteImg2))
      (some outImg2)) 0 0 = some defaultOptions.diffColor := by
  refine ⟨by decide, by decide, by decide, by decide, by decide, by decide⟩

/-- C10 (counterexample): with both inputs non-empty non-NRGBA images whose
bounds match the output, Diff does not always panic as the claim states.  At
the exact size 2000x2000 the tile loop dispatches nothing (w - containerW = 0)
and Diff returns count 0 with no error, never reaching the nil SubImage call;
at 1x2000 the outer loop has a zero step (containerW = w - 1 = 0) with a
non-empty range and no dispatch, so Diff spins forever instead of panicking. -/
theorem diff_no_crash_at_2000 :
    Diff (.otherImg rect2000) (.otherImg rect2000) (some outImg2000) =
      .ok 0 outImg2000.pix ∧
    rect2000.isEmpty = false ∧
    Diff (.otherImg rect1x2000) (.otherImg rect1x2000) (some outImg1x2000) = .looping ∧
    rect1x2000.isEmpty = false := by
  exact ⟨rfl, rfl, rfl, rfl⟩

/-- C10 (amended): Diff type-asserts both inputs to *image.NRGBA discarding
failure; whenever at least one input is of a different concrete type and the
images pass checkImages, the outcome is decided by the tile loop: if it
dispatches a tile (0 < w - containerW and 0 < h - containerH) the SubImage
call on the nil assertion result dereferences nil and Diff panics instead of
returning an error; if no tile is dispatched the nil result is never
dereferenced and Diff does not panic — it either returns count 0 with no
error and the buffer untouched, or, when a zero-step loop range is non-empty,
runs forever. -/
theorem diff_type_assert_crash (img1 img2 : GoIface) (out : NRGBAImage)
    (r1 r2 : GoRect)
    (he1 : isEmptyImgI img1 = some false) (he2 : isEmptyImgI img2 = some false)
    (he3 : out.rect.isEmpty = false)
    (hb1 : boundsI img1 = some r1) (hb2 : boundsI img2 = some r2)
    (hq1 : rectGoEq r1 r2 = true) (hq2 : rectGoEq r2 out.rect = true)
    (hns : asNRGBA img1 = none ∨ asNRGBA img2 = none) :
    (0 < out.rect.maxX - containerSide out.rect.maxX →
      0 < out.rect.maxY - containerSide out.rect.maxY →
      Diff img1 img2 (some out) = .crashed) ∧
    (¬(0 < out.rect.maxX - containerSide out.rect.maxX ∧
        0 < out.rect.maxY - containerSide out.rect.maxY) →
      Diff img1 img2 (some out) = .ok 0 out.pix ∨
      Diff img1 img2 (some out) = .looping) := by
  have hscan : emptyScanAux [img1, img2, .nrgbaPtr (some out)] 0 = some [] := by
    simp only [emptyScanAux, he1, he2]
    show (match isEmptyImgI (.nrgbaPtr (some out)) with
      | none => none
      | some true => (emptyScanAux [] 3).map (fun names => indexImgStr 2 :: names)
      | some false => emptyScanAux [] 3) = some []
    rw [show isEmptyImgI (.nrgbaPtr (some out)) = some out.rect.isEmpty from rfl, he3]
    rfl
  have hsize : sizeScanAux [img1, img2, .nrgbaPtr (some out)] 0 = some [] := by
    simp only [sizeScanAux, hb1, hb2]
    show (match boundsI (.nrgbaPtr (some out)) with
      | some rb =>
        match (match boundsI (.nrgbaPtr (some out)) with
          | some _ => some ([] : List (Nat × GoRect × Nat × GoRect))
          | none => none) with
        | some entries => some (if rectGoEq r2 rb then entries else (1, r2, 2, rb) :: entries)
        | none => none
      | none => none).bind (fun entries =>
        some (if rectGoEq r1 r2 then entries else (0, r1, 1, r2) :: entries)) = some []
    rw [show boundsI (.nrgbaPtr (some out)) = some out.rect from rfl]
    simp [hq1, hq2]
  have hDb : Diff img1 img2 (some out) = diffBody img1 img2 out := by
    unfold Diff checkImages
    rw [hscan]
    simp only [List.isEmpty_nil, if_true]
    rw [hsize]
    simp only [List.isEmpty_nil, if_true]
  constructor
  · intro hda hdb
    rw [hDb]
    unfold diffBody
    rw [if_pos hda, if_pos hdb]
    rcases hns with hn | hn
    · rw [hn]
    · rw [hn]
      rcases hv : asNRGBA img1 with _ | v <;> rfl
  · intro hnd
    rw [hDb]
    unfold diffBody
    by_cases hA : 0 < out.rect.maxX - containerSide out.rect.maxX
    · rw [if_pos hA, if_neg (fun hb => hnd ⟨hA, hb⟩)]
      by_cases hcw : 0 < containerSide out.rect.maxX
      · rw [if_pos hcw]
        exact Or.inl rfl
      · rw [if_neg hcw]
        exact Or.inr rfl
    · rw [if_neg hA]
      exact Or.inl rfl

theorem diff_type_assert_crash_witness :
    isEmptyImgI (.otherImg otherRect3) = some false ∧
    asNRGBA (.otherImg otherRect3) = none ∧
    0 < outImg3.rect.maxX - containerSide outImg3.rect.maxX ∧
    Diff (.otherImg otherRect3) (.nrgbaPtr (some blackImg3)) (some outImg3) = .crashed :=
  ⟨by decide, rfl, by decide,
    (diff_type_assert_crash (.otherImg otherRect3) (.nrgbaPtr (some blackImg3)) outImg3
      otherRect3 blackImg3.rect (by decide) (by decide) (by decide) rfl rfl (by decide)
      (by decide) (Or.inl rfl)).1 (by decide) (by decide)⟩

theorem isEmptyImgI_isSome (img : GoIface) (h : img ≠ .nrgbaPtr none) :
    ∃ v, isEmptyImgI img = some v := by
  cases img with
  | nilI => exact ⟨true, rfl⟩
  | nrgbaPtr p =>
    cases p with
    | none => exact absurd rfl h
    | some im => exact ⟨im.rect.isEmpty, rfl⟩
  | otherImg r => exact ⟨r.isEmpty, rfl⟩

theorem isEmptyImgI_nrgba (im : NRGBAImage) :
    isEmptyImgI (.nrgbaPtr (some im)) = some im.rect.isEmpty := rfl

theorem boundsI_nrgba (im : NRGBAImage) :
    boundsI (.nrgbaPtr (some im)) = some im.rect := rfl

theorem emptyScan_eval (img1 img2 : GoIface) (out : NRGBAImage) (v1 v2 : Bool)
    (h1 : isEmptyImgI img1 = some v1) (h2 : isEmptyImgI img2 = some v2) :
    emptyScanAux [img1, img2, .nrgbaPtr (some out)] 0 =
      some ((if v1 then ["first img"] else []) ++ (if v2 then ["second img"] else []) ++
        (if out.rect.isEmpty then ["output img"] else [])) := by
  cases v1 <;> cases v2 <;> cases h3 : out.rect.isEmpty <;>
    simp [emptyScanAux, h1, h2, isEmptyImgI_nrgba, h3, indexImgStr]

theorem sizeScan_eval (img1 img2 : GoIface) (out : NRGBAImage) (r1 r2 : GoRect)
    (h1 : boundsI img1 = some r1) (h2 : boundsI img2 = some r2) :
    sizeScanAux [img1, img2, .nrgbaPtr (some out)] 0 =
      some ((if rectGoEq r1 r2 then [] else [(0, r1, 1, r2)]) ++
        (if rectGoEq r2 out.rect then [] else [(1, r2, 2, out.rect)])) := by
  cases hq1 : rectGoEq r1 r2 <;> cases hq2 : rectGoEq r2 out.rect <;>
    simp [sizeScanAux, h1, h2, boundsI_nrgba, hq1, hq2]

theorem diffBody_ne_fail (img1 img2 : GoIface) (out : NRGBAImage) (e : GoError)
    (n : Nat) (o2 : Img) : diffBody img1 img2 out ≠ .fail e n o2 := by
  intro h
  unfold diffBody at h
  dsimp only at h
  repeat' split at h
  all_goals simp_all

theorem isEmpty_of_bounds (img : GoIface) (r : GoRect) (v : Bool)
    (hb : boundsI img = some r) (he : isEmptyImgI img = some v) : r.isEmpty = v := by
  cases img with
  | nilI => exact absurd hb (by simp [boundsI])
  | nrgbaPtr p =>
    cases p with
    | none => exact absurd hb (by simp [boundsI])
    | some im =>
      simp only [boundsI, Option.some.injEq] at hb
      simp only [isEmptyImgI, Option.some.injEq] at he
      rw [← hb, he]
  | otherImg s =>
    simp only [boundsI, Option.some.injEq] at hb
    simp only [isEmptyImgI, Option.some.injEq] at he
    rw [← hb, he]

theorem rectGoEq_eq_of_nonempty (r s : GoRect) (hr : r.isEmpty = false)
    (h : rectGoEq r s = true) : r = s := by
  unfold rectGoEq at h
  simp only [Bool.or_eq_true, Bool.and_eq_true, beq_iff_eq] at h
  rcases h with h | ⟨h1, h2⟩
  · exact h
  · rw [hr] at h1
    exact absurd h1 (by simp)

theorem rectGoEq_refl (r : GoRect) : rectGoEq r r = true := by
  simp [rectGoEq]

theorem diff_fail_of_emptyNames (img1 img2 : GoIface) (out : NRGBAImage)
    (names : List String)
    (hscan : emptyScanAux [img1, img2, .nrgbaPtr (some out)] 0 = some names)
    (hne : names.isEmpty = false) :
    Diff img1 img2 (some out) = .fail (.emptyImage names) 0 out.pix := by
  unfold Diff checkImages
  rw [hscan]
  dsimp only
  rw [hne]
  rfl

theorem diff_not_emptyfail_of_noNames (img1 img2 : GoIface) (out : NRGBAImage)
    (hscan : emptyScanAux [img1, img2, .nrgbaPtr (some out)] 0 = some [])
    (nm : List String) (n : Nat) (o2 : Img) :
    Diff img1 img2 (some out) ≠ .fail (.emptyImage nm) n o2 := by
  intro h
  unfold Diff checkImages at h
  rw [hscan] at h
  dsimp only at h
  simp only [List.isEmpty_nil, if_true] at h
  rcases hsz : sizeScanAux [img1, img2, .nrgbaPtr (some out)] 0 with _ | es
  · rw [hsz] at h
    exact DiffOutcome.noConfusion h
  · rw [hsz] at h
    dsimp only at h
    by_cases hese : es.isEmpty
    · rw [hese] at h
      simp only [if_true] at h
      exact diffBody_ne_fail img1 img2 out _ _ _ h
    · rw [Bool.not_eq_true] at hese
      rw [hese] at h
      simp only [Bool.false_eq_true, if_false] at h
      have := DiffOutcome.fail.inj h
      exact GoError.noConfusion this.1

/-- C6 (amended): provided no input is a non-nil interface wrapping a nil
*image.NRGBA (such a value panics inside isEmptyImg's Bounds call) and the
output pointer is non-nil, Diff returns the EmptyImage error, with count 0 and
the output untouched, exactly when the first input is nil or empty-bounds, the
second is nil or empty-bounds, or the output has empty bounds; the check runs
before any size comparison or pixel access, and the error names exactly the
empty images among first img, second img, output img, in that order. -/
theorem diff_empty_error (img1 img2 : GoIface) (out : NRGBAImage)
    (hn1 : img1 ≠ .nrgbaPtr none) (hn2 : img2 ≠ .nrgbaPtr none) :
    ((∃ names, Diff img1 img2 (some out) = .fail (.emptyImage names) 0 out.pix) ↔
      (isEmptyImgI img1 = some true ∨ isEmptyImgI img2 = some true ∨
        out.rect.isEmpty = true)) ∧
    (∀ names n o2, Diff img1 img2 (some out) = .fail (.emptyImage names) n o2 →
      names = (if isEmptyImgI img1 = some true then ["first img"] else []) ++
        (if isEmptyImgI img2 = some true then ["second img"] else []) ++
        (if out.rect.isEmpty = true then ["output img"] else []) ∧
      n = 0 ∧ o2 = out.pix) := by
  obtain ⟨v1, h1⟩ := isEmptyImgI_isSome img1 hn1
  obtain ⟨v2, h2⟩ := isEmptyImgI_isSome img2 hn2
  have hscan := emptyScan_eval img1 img2 out v1 v2 h1 h2
  rw [h1, h2]
  cases v1 <;> cases v2 <;> cases h3 : out.rect.isEmpty <;> rw [h3] at hscan
  case false.false.false =>
    have hscan2 : emptyScanAux [img1, img2, .nrgbaPtr (some out)] 0 = some [] := by
      rw [hscan]
      rfl
    constructor
    · constructor
      · rintro ⟨nm, hD⟩
        exact absurd hD (diff_not_emptyfail_of_noNames img1 img2 out hscan2 nm 0 out.pix)
      · intro hor
        rcases hor with hh | hh | hh <;> simp at hh
    · intro nm n o2 hD
      exact absurd hD (diff_not_emptyfail_of_noNames img1 img2 out hscan2 nm n o2)
  all_goals
    have hD := diff_fail_of_emptyNames img1 img2 out _ hscan (by rfl)
    refine ⟨⟨fun _ => ?_, fun _ => ⟨_, hD⟩⟩, ?_⟩
    · first
      | exact Or.inl rfl
      | exact Or.inr (Or.inl rfl)
      | exact Or.inr (Or.inr rfl)
    · intro nm n o2 hD2
      rw [hD] at hD2
      have hinj := DiffOutcome.fail.inj hD2
      have hnm := GoError.emptyImage.inj hinj.1
      refine ⟨?_, hinj.2.1.symm, hinj.2.2.symm⟩
      exact hnm.symm.trans (by rfl)

/-- C6 (counterexample): a nil output pointer is wrapped in a non-nil
image.Image interface value, so isEmptyImg's nil test misses it and its
Bounds() call dereferences the nil pointer: Diff panics instead of returning
the EmptyImage error that the claim requires for a nil output image. -/
theorem diff_nil_output_crashes :
    Diff (.nrgbaPtr (some blackImg3)) (.nrgbaPtr (some blackImg3)) none = .crashed := rfl

theorem diff_empty_error_witness :
    GoIface.nilI ≠ GoIface.nrgbaPtr none ∧
    ((∃ names, Diff .nilI (.nrgbaPtr (some blackImg3)) (some blackImg3) =
        .fail (.emptyImage names) 0 blackImg3.pix) ↔
      (isEmptyImgI .nilI = some true ∨
        isEmptyImgI (.nrgbaPtr (some blackImg3)) = some true ∨
        blackImg3.rect.isEmpty = true)) ∧
    (∀ names n o2, Diff .nilI (.nrgbaPtr (some blackImg3)) (some blackImg3) =
        .fail (.emptyImage names) n o2 →
      names = (if isEmptyImgI .nilI = some true then ["first img"] else []) ++
        (if isEmptyImgI (.nrgbaPtr (some blackImg3)) = some true then ["second img"] else []) ++
        (if blackImg3.rect.isEmpty = true then ["output img"] else []) ∧
      n = 0 ∧ o2 = blackImg3.pix) :=
  ⟨fun h => GoIface.noConfusion h,
    (diff_empty_error .nilI (.nrgbaPtr (some blackImg3)) blackImg3
      (fun h => GoIface.noConfusion h)
      (fun h => Option.noConfusion (GoIface.nrgbaPtr.inj h))).1,
    (diff_empty_error .nilI (.nrgbaPtr (some blackImg3)) blackImg3
      (fun h => GoIface.noConfusion h)
      (fun h => Option.noConfusion (GoIface.nrgbaPtr.inj h))).2⟩

theorem diff_fail_of_sizeEntries (img1 img2 : GoIface) (out : NRGBAImage)
    (es : List (Nat × GoRect × Nat × GoRect))
    (hscan : emptyScanAux [img1, img2, .nrgbaPtr (some out)] 0 = some [])
    (hsz : sizeScanAux [img1, img2, .nrgbaPtr (some out)] 0 = some es)
    (hne : es.isEmpty = false) :
    Diff img1 img2 (some out) = .fail (.imageSize es) 0 out.pix := by
  unfold Diff checkImages
  rw [hscan]
  dsimp only
  simp only [List.isEmpty_nil, if_true]
  rw [hsz]
  dsimp only
  rw [hne]
  rfl

/-- C5 (amended): for non-empty images, Diff returns the ImageSizeMismatch
error, with count 0 and the output untouched, exactly when some two of the
three images have unequal bounds; the error enumerates the offending
consecutive pairs only — (first, second) and (second, output) — each with both
bounds. -/
theorem diff_size_error (img1 img2 : GoIface) (out : NRGBAImage) (r1 r2 : GoRect)
    (he1 : isEmptyImgI img1 = some false) (he2 : isEmptyImgI img2 = some false)
    (he3 : out.rect.isEmpty = false)
    (hb1 : boundsI img1 = some r1) (hb2 : boundsI img2 = some r2) :
    ((∃ es, Diff img1 img2 (some out) = .fail (.imageSize es) 0 out.pix) ↔
      ¬(rectGoEq r1 r2 = true ∧ rectGoEq r2 out.rect = true ∧
        rectGoEq r1 out.rect = true)) ∧
    (∀ es n o2, Diff img1 img2 (some out) = .fail (.imageSize es) n o2 →
      es = (if rectGoEq r1 r2 then [] else [(0, r1, 1, r2)]) ++
        (if rectGoEq r2 out.rect then [] else [(1, r2, 2, out.rect)]) ∧
      n = 0 ∧ o2 = out.pix) := by
  have hscan : emptyScanAux [img1, img2, .nrgbaPtr (some out)] 0 = some [] := by
    have hev := emptyScan_eval img1 img2 out false false he1 he2
    rw [he3] at hev
    rw [hev]
    rfl
  have hsz := sizeScan_eval img1 img2 out r1 r2 hb1 hb2
  have hr1 : r1.isEmpty = false := isEmpty_of_bounds img1 r1 false hb1 he1
  cases hq1 : rectGoEq r1 r2 <;> cases hq2 : rectGoEq r2 out.rect <;> rw [hq1, hq2] at hsz
  case true.true =>
    have hD : Diff img1 img2 (some out) = diffBody img1 img2 out := by
      unfold Diff checkImages
      rw [hscan]
      dsimp only
      simp only [List.isEmpty_nil, if_true]
      rw [hsz]
      rfl
    constructor
    · constructor
      · rintro ⟨es, hD2⟩
        rw [hD] at hD2
        exact absurd hD2 (diffBody_ne_fail img1 img2 out _ _ _)
      · intro hne
        exfalso
        apply hne
        refine ⟨rfl, rfl, ?_⟩
        rw [rectGoEq_eq_of_nonempty r1 r2 hr1 hq1]
        exact hq2
    · intro es n o2 hD2
      rw [hD] at hD2
      exact absurd hD2 (diffBody_ne_fail img1 img2 out _ _ _)
  all_goals
    have hD := diff_fail_of_sizeEntries img1 img2 out _ hscan hsz (by rfl)
    refine ⟨⟨fun _ => ?_, fun _ => ⟨_, hD⟩⟩, ?_⟩
    · intro hc
      obtain ⟨hc1, hc2, hc3⟩ := hc
      simp at hc1 hc2
    · intro es n o2 hD2
      rw [hD] at hD2
      have hinj := DiffOutcome.fail.inj hD2
      have hes := GoError.imageSize.inj hinj.1
      exact ⟨hes.symm.trans (by rfl), hinj.2.1.symm, hinj.2.2.symm⟩

/-- C5 (counterexample): with bounds 1x1, 2x2 and 3x3, the (first, output)
pair also has unequal bounds, but checkImages compares consecutive pairs only,
so the error entries list exactly (first, second) and (second, output) and no
entry pairs the first image with the output. -/
theorem checkImages_consecutive_only :
    Diff (.nrgbaPtr (some img1x1)) (.nrgbaPtr (some blackImg2)) (some blackImg3) =
      .fail (.imageSize [(0, ⟨0, 0, 1, 1⟩, 1, ⟨0, 0, 2, 2⟩),
        (1, ⟨0, 0, 2, 2⟩, 2, ⟨0, 0, 3, 3⟩)]) 0 blackImg3.pix ∧
    rectGoEq ⟨0, 0, 1, 1⟩ ⟨0, 0, 3, 3⟩ = false ∧
    (([(0, (⟨0, 0, 1, 1⟩ : GoRect), 1, (⟨0, 0, 2, 2⟩ : GoRect)),
        (1, ⟨0, 0, 2, 2⟩, 2, ⟨0, 0, 3, 3⟩)]).all
      (fun e => !(decide (e.1 = 0) && decide (e.2.2.1 = 2)))) = true := by
  refine ⟨rfl, by decide, by decide⟩

theorem diff_size_error_witness :
    isEmptyImgI (.nrgbaPtr (some img1x1)) = some false ∧
    boundsI (.nrgbaPtr (some img1x1)) = some ⟨0, 0, 1, 1⟩ ∧
    ((∃ es, Diff (.nrgbaPtr (some img1x1)) (.nrgbaPtr (some blackImg2)) (some blackImg3) =
        .fail (.imageSize es) 0 blackImg3.pix) ↔
      ¬(rectGoEq ⟨0, 0, 1, 1⟩ ⟨0, 0, 2, 2⟩ = true ∧
        rectGoEq ⟨0, 0, 2, 2⟩ blackImg3.rect = true ∧
        rectGoEq ⟨0, 0, 1, 1⟩ blackImg3.rect = true)) ∧
    (∀ es n o2, Diff (.nrgbaPtr (some img1x1)) (.nrgbaPtr (some blackImg2))
        (some blackImg3) = .fail (.imageSize es) n o2 →
      es = (if rectGoEq ⟨0, 0, 1, 1⟩ ⟨0, 0, 2, 2⟩ then []
          else [(0, ⟨0, 0, 1, 1⟩, 1, ⟨0, 0, 2, 2⟩)]) ++
        (if rectGoEq ⟨0, 0, 2, 2⟩ blackImg3.rect then []
          else [(1, ⟨0, 0, 2, 2⟩, 2, blackImg3.rect)]) ∧
      n = 0 ∧ o2 = blackImg3.pix) :=
  ⟨rfl, rfl,
    (diff_size_error (.nrgbaPtr (some img1x1)) (.nrgbaPtr (some blackImg2)) blackImg3
      ⟨0, 0, 1, 1⟩ ⟨0, 0, 2, 2⟩ (by decide) (by decide) (by decide) rfl rfl).1,
    (diff_size_error (.nrgbaPtr (some img1x1)) (.nrgbaPtr (some blackImg2)) blackImg3
      ⟨0, 0, 1, 1⟩ ⟨0, 0, 2, 2⟩ (by decide) (by decide) (by decide) rfl rfl).2⟩

theorem mem_rangeIco (lo hi a : Int) : a ∈ rangeIco lo hi ↔ lo ≤ a ∧ a < hi := by
  unfold rangeIco
  rw [List.mem_map]
  constructor
  · rintro ⟨k, hk, hke⟩
    rw [List.mem_range] at hk
    have hk2 : lo + (Nat.cast k : Int) = a := hke
    omega
  · intro hb
    refine ⟨(a - lo).toNat, ?_, ?_⟩
    · rw [List.mem_range]
      omega
    · show lo + (Nat.cast ((a - lo).toNat) : Int) = a
      omega

theorem mem_pixList (r : GoRect) (x y : Int) :
    (x, y) ∈ pixList r ↔ inRect r x y = true := by
  constructor
  · intro hmem
    simp only [pixList, List.mem_flatMap, List.mem_map] at hmem
    obtain ⟨y2, hy2, x2, hx2, heq⟩ := hmem
    cases heq
    rw [mem_rangeIco] at hy2 hx2
    simp only [inRect, Bool.and_eq_true, decide_eq_true_eq]
    omega
  · intro hin
    simp only [inRect, Bool.and_eq_true, decide_eq_true_eq] at hin
    simp only [pixList, List.mem_flatMap, List.mem_map]
    refine ⟨y, ?_, x, ?_, rfl⟩
    · rw [mem_rangeIco]
      omega
    · rw [mem_rangeIco]
      omega

theorem pixStep_default (a b : Img) (w h : Int) (md : ℚ) (acc : Nat × Img) (p : Int × Int) :
    pixStep a b w h defaultOptions md acc p =
      if aboveThreshold a b md p.1 p.2
      then (acc.1 + 1, writePix acc.2 p.1 p.2 defaultOptions.diffColor) else acc := by
  unfold pixStep aboveThreshold
  dsimp only
  rw [show defaultOptions.includeAA = true from rfl, show defaultOptions.diffMask = true from rfl]
  simp only [Bool.not_true, Bool.false_and, Bool.false_eq_true, if_false]

theorem pixFold_snd (a b : Img) (w h : Int) (md : ℚ) :
    ∀ (l : List (Int × Int)) (c : Nat) (o : Img) (x y : Int),
      ((l.foldl (pixStep a b w h defaultOptions md) (c, o)).2) x y =
        if (x, y) ∈ l ∧ aboveThreshold a b md x y
        then defaultOptions.diffColor else o x y := by
  intro l
  induction l with
  | nil =>
    intro c o x y
    simp
  | cons p rest ih =>
    intro c o x y
    obtain ⟨px, py⟩ := p
    rw [List.foldl_cons, pixStep_default]
    by_cases hp : aboveThreshold a b md px py
    · rw [if_pos hp]
      dsimp only
      rw [ih]
      by_cases hxy : x = px ∧ y = py
      · obtain ⟨hx, hy⟩ := hxy
        subst hx
        subst hy
        by_cases hm : (x, y) ∈ rest ∧ aboveThreshold a b md x y
        · rw [if_pos hm, if_pos ⟨List.mem_cons_self _ _, hp⟩]
        · rw [if_neg hm, if_pos ⟨List.mem_cons_self _ _, hp⟩]
          unfold writePix
          rw [if_pos ⟨rfl, rfl⟩]
      · have hw : writePix o px py defaultOptions.diffColor x y = o x y := by
          unfold writePix
          rw [if_neg hxy]
        rw [hw]
        refine if_congr ?_ rfl rfl
        constructor
        · rintro ⟨hm, ha⟩
          exact ⟨List.mem_cons_of_mem _ hm, ha⟩
        · rintro ⟨hm, ha⟩
          rcases List.mem_cons.1 hm with hpe | hm2
          · exact absurd ⟨congrArg Prod.fst hpe, congrArg Prod.snd hpe⟩ hxy
          · exact ⟨hm2, ha⟩
    · rw [if_neg hp]
      rw [ih]
      refine if_congr ?_ rfl rfl
      constructor
      · rintro ⟨hm, ha⟩
        exact ⟨List.mem_cons_of_mem _ hm, ha⟩
      · rintro ⟨hm, ha⟩
        rcases List.mem_cons.1 hm with hpe | hm2
        · exfalso
          apply hp
          have hx : x = px := congrArg Prod.fst hpe
          have hy : y = py := congrArg Prod.snd hpe
          rw [← hx, ← hy]
          exact ha
        · exact ⟨hm2, ha⟩

theorem pixFold_fst (a b : Img) (w h : Int) (md : ℚ) :
    ∀ (l : List (Int × Int)) (c : Nat) (o : Img),
      ((l.foldl (pixStep a b w h defaultOptions md) (c, o)).1) =
        c + l.countP (fun p => decide (aboveThreshold a b md p.1 p.2)) := by
  intro l
  induction l with
  | nil =>
    intro c o
    simp
  | cons p rest ih =>
    intro c o
    rw [List.foldl_cons, pixStep_default, List.countP_cons]
    by_cases hp : aboveThreshold a b md p.1 p.2
    · rw [if_pos hp, if_pos (decide_eq_true hp)]
      dsimp only
      rw [ih]
      omega
    · rw [if_neg hp, if_neg (fun hcon => hp (of_decide_eq_true hcon))]
      rw [ih]
      omega

theorem tileFold_snd (a b : Img) (w h : Int) (md : ℚ) :
    ∀ (ts : List GoRect) (c : Nat) (o : Img) (x y : Int),
      ((ts.foldl (fun acc t =>
          let res := processTile a b w h defaultOptions md t acc.2
          (acc.1 + res.1, res.2)) (c, o)).2) x y =
        if (∃ t ∈ ts, inRect t x y = true) ∧ aboveThreshold a b md x y
        then defaultOptions.diffColor else o x y := by
  intro ts
  induction ts with
  | nil =>
    intro c o x y
    simp
  | cons t rest ih =>
    intro c o x y
    rw [List.foldl_cons]
    dsimp only
    rw [ih]
    have hsnd : (processTile a b w h defaultOptions md t o).2 x y =
        if (x, y) ∈ pixList t ∧ aboveThreshold a b md x y
        then defaultOptions.diffColor else o x y :=
      pixFold_snd a b w h md (pixList t) 0 o x y
    by_cases hab : aboveThreshold a b md x y
    · by_cases hmem : ∃ t2 ∈ rest, inRect t2 x y = true
      · rw [if_pos ⟨hmem, hab⟩]
        obtain ⟨t2, ht2, hin⟩ := hmem
        rw [if_pos ⟨⟨t2, List.mem_cons_of_mem _ ht2, hin⟩, hab⟩]
      · rw [if_neg (fun hc => hmem hc.1)]
        rw [hsnd]
        refine if_congr ?_ rfl rfl
        rw [mem_pixList]
        constructor
        · rintro ⟨hin, ha⟩
          exact ⟨⟨t, List.mem_cons_self _ _, hin⟩, ha⟩
        · rintro ⟨⟨t2, ht2, hin⟩, ha⟩
          rcases List.mem_cons.1 ht2 with h1 | h1
          · exact ⟨h1 ▸ hin, ha⟩
          · exact absurd ⟨t2, h1, hin⟩ hmem
    · rw [if_neg (fun hc => hab hc.2), hsnd, if_neg (fun hc => hab hc.2),
        if_neg (fun hc => hab hc.2)]

theorem tileFold_fst (a b : Img) (w h : Int) (md : ℚ) :
    ∀ (ts : List GoRect) (c : Nat) (o : Img),
      ((ts.foldl (fun acc t =>
          let res := processTile a b w h defaultOptions md t acc.2
          (acc.1 + res.1, res.2)) (c, o)).1) =
        c + (ts.map fun t =>
          (pixList t).countP fun p => decide (aboveThreshold a b md p.1 p.2)).sum := by
  intro ts
  induction ts with
  | nil =>
    intro c o
    simp
  | cons t rest ih =>
    intro c o
    rw [List.foldl_cons]
    dsimp only
    rw [ih]
    have hfst : (processTile a b w h defaultOptions md t o).1 =
        (pixList t).countP (fun p => decide (aboveThreshold a b md p.1 p.2)) := by
      have := pixFold_fst a b w h md (pixList t) 0 o
      simpa using this
    rw [hfst, List.map_cons, List.sum_cons]
    omega

/-- C9: Diff takes no options argument and always runs with the package's
built-in defaults — threshold 0.1 (so the absolute threshold is 35215 * 0.01),
includeAA true and diffMask true; consequently the anti-aliasing branch is
unreachable, the pixel work of Diff paints exactly the visited (tile-covered)
above-threshold pixels with diffColor and counts exactly those, and every
other output pixel is left unchanged: no aaColor marker and no grayscale
background pixel is ever written. -/
theorem diff_defaults_mask :
    (defaultOptions.threshold = 1 / 10 ∧ defaultOptions.includeAA = true ∧
      defaultOptions.diffMask = true ∧
      maxDeltaOf defaultOptions.threshold = 35215 * 0.01) ∧
    ∀ (a b : Img) (w h : Int) (o : Img),
      (∀ x y : Int, (diffRun a b w h o).2 x y =
        if (∃ t ∈ dispatchedTiles w h, inRect t x y = true) ∧
            aboveThreshold a b (maxDeltaOf defaultOptions.threshold) x y
        then defaultOptions.diffColor else o x y) ∧
      (diffRun a b w h o).1 =
        ((dispatchedTiles w h).map fun t =>
          (pixList t).countP fun p =>
            decide (aboveThreshold a b (maxDeltaOf defaultOptions.threshold) p.1 p.2)).sum := by
  constructor
  · refine ⟨by norm_num [defaultOptions], rfl, rfl, ?_⟩
    show (35215 : ℚ) * 0.1 * 0.1 = 35215 * 0.01
    norm_num
  · intro a b w h o
    constructor
    · intro x y
      exact tileFold_snd a b w h (maxDeltaOf defaultOptions.threshold)
        (dispatchedTiles w h) 0 o x y
    · exact (tileFold_fst a b w h (maxDeltaOf defaultOptions.threshold)
        (dispatchedTiles w h) 0 o).trans (Nat.zero_add _)
